import Mathlib

/-!
Shallow embedding of the transfer functions in `topo/transferfn/misc.py`
(TemporalScatter, KernelMax, HomeostaticResponse, AttributeTrackingTF),
together with theorems settling the specification's claims about them.

Activity matrices are embedded as total functions `ℕ → ℕ → ℚ` from matrix
indices to rational values; the host simulator's numpy arrays are mutated in
place, which the embedding renders as explicit state passing.
-/

/-- Activity matrix: the 2D array of per-unit values, embedded as a function
from (row, column) matrix indices to rational values. -/
abbrev Activity : Type := ℕ → ℕ → ℚ

namespace TemporalScatter

/-- Embedding of the `depth` property: raises when
`not (span // timestep) or (span % timestep)`, i.e. when the integer quotient
is zero or the remainder is nonzero; otherwise returns `span // timestep`. -/
def depth (span timestep : ℕ) : Except String ℕ :=
  if span / timestep = 0 ∨ span % timestep ≠ 0 then
    Except.error "The span of the specified limits must be an exact, *positive*, multiple of timestep"
  else
    Except.ok (span / timestep)

/-- Embedding of `np.linspace a b n`: `n` evenly spaced points from `a` to `b`
inclusive (`[a]` when `n = 1`, `[]` when `n = 0`). -/
def linspace (a b : ℚ) : ℕ → List ℚ
  | 0 => []
  | 1 => [a]
  | n + 2 => (List.range (n + 2)).map (fun i : ℕ => a + (i : ℚ) * (b - a) / ((n : ℚ) + 1))

/-- Embedding of `np.digitize v edges` for a monotonically increasing edge
list (which `linspace` produces): the index of the bin `v` falls into, equal
to the number of edges that are `≤ v`. -/
def digitize (v : ℚ) (edges : List ℚ) : ℕ :=
  edges.countP (fun e => decide (e ≤ v))

/-- Embedding of `TemporalScatter._compute_depth_map`: digitize the raw
distribution sample `raw` into `depth` bins over the zero-centered limits
`(-span/2, span/2)`, pulling the out-of-bounds overflow bin
(`discretized == len(bin_edges)`) back to the last valid bin. The raw sample
itself comes from an external pattern generator, so it is passed in as a
parameter. -/
def compute_depth_map (span depth : ℕ) (raw : Activity) : ℕ → ℕ → ℕ :=
  let bin_edges := linspace (-(span : ℚ) / 2) ((span : ℚ) / 2) depth
  fun i j =>
    let d := digitize (raw i j) bin_edges
    if d = bin_edges.length then bin_edges.length - 1 else d

/-- Mutable state of a TemporalScatter instance: the 3D activity buffer
(`none` before the first call, mirroring `_buffer = None`), the first-call
flag, the discretized depth map (placeholder before the first call, mirroring
`depth_map = None`), and the private checkpoint stack. -/
structure State where
  buffer : Option (ℕ → ℕ → ℕ → ℚ)
  first_call : Bool
  depth_map : ℕ → ℕ → ℕ
  state_stack : List (Option (ℕ → ℕ → ℕ → ℚ) × Bool)

/-- State of a freshly constructed TemporalScatter. -/
def State.init : State :=
  { buffer := none, first_call := true, depth_map := fun _ _ => 0, state_stack := [] }

/-- Embedding of `TemporalScatter.__call__`: on the first call allocate a
zero buffer and compute the depth map; every call rolls the buffer by one
along the depth axis, writes the input at depth slot 0, and outputs, per
unit, the buffer slice selected by the depth map. The unreachable case of a
non-first call with an unallocated buffer reads a zero buffer (in the source
it would be a crash). -/
def call (span timestep : ℕ) (raw : Activity) (s : State) (x : Activity) :
    State × Activity :=
  let depth := span / timestep
  let s1 := if s.first_call then
      { s with buffer := some (fun _ _ _ => 0),
               depth_map := compute_depth_map span depth raw,
               first_call := false }
    else s
  let buf := s1.buffer.getD (fun _ _ _ => 0)
  let rolled : ℕ → ℕ → ℕ → ℚ := fun i j k => buf i j ((k + depth - 1) % depth)
  let newbuf : ℕ → ℕ → ℕ → ℚ := fun i j k => if k = 0 then x i j else rolled i j k
  let out : Activity := fun i j => newbuf i j (s1.depth_map i j)
  ({ s1 with buffer := some newbuf }, out)

/-- Embedding of `TemporalScatter.state_push`: append a copy of the buffer
and the first-call flag to the private stack, then zero the live buffer when
it is allocated. -/
def state_push (s : State) : State :=
  { s with state_stack := (s.buffer, s.first_call) :: s.state_stack,
           buffer := s.buffer.map (fun _ => fun _ _ _ => 0) }

/-- Embedding of `TemporalScatter.state_pop`: restore the buffer and
first-call flag from the top of the private stack. Popping an empty stack is
a host programming error (an IndexError in the source); the embedding leaves
the state unchanged in that unreachable case. -/
def state_pop (s : State) : State :=
  match s.state_stack with
  | [] => s
  | (b, f) :: rest => { s with buffer := b, first_call := f, state_stack := rest }

/-- State after the first `n` calls, fed the input stream `xs`. -/
def state_after (span timestep : ℕ) (raw : Activity) (xs : ℕ → Activity) : ℕ → State
  | 0 => State.init
  | n + 1 => (call span timestep raw (state_after span timestep raw xs n) (xs n)).1

/-- Matrix written in place by call number `n` (0-indexed). -/
def output (span timestep : ℕ) (raw : Activity) (xs : ℕ → Activity) (n : ℕ) : Activity :=
  (call span timestep raw (state_after span timestep raw xs n) (xs n)).2

lemma linspace_length (a b : ℚ) (n : ℕ) : (linspace a b n).length = n := by
  match n with
  | 0 => rfl
  | 1 => rfl
  | n + 2 =>
      show ((List.range (n + 2)).map
        (fun i : ℕ => a + (i : ℚ) * (b - a) / ((n : ℚ) + 1))).length = n + 2
      rw [List.length_map, List.length_range]

lemma compute_depth_map_lt (span dep : ℕ) (raw : Activity) (hd : 0 < dep) (i j : ℕ) :
    compute_depth_map span dep raw i j < dep := by
  have hlen : (linspace (-(span : ℚ) / 2) ((span : ℚ) / 2) dep).length = dep :=
    linspace_length _ _ _
  have hle : digitize (raw i j) (linspace (-(span : ℚ) / 2) ((span : ℚ) / 2) dep) ≤ dep := by
    have h := List.countP_le_length
      (p := fun e => decide (e ≤ raw i j))
      (l := linspace (-(span : ℚ) / 2) ((span : ℚ) / 2) dep)
    simpa [digitize, hlen] using h
  simp only [compute_depth_map, hlen]
  split <;> omega

/-- C10: every entry of the discretized depth map produced by
`_compute_depth_map` lies in `[0, depth)` — values digitized beyond the last
bin edge are clamped back to `depth - 1` — so the per-unit buffer lookup in
`__call__` always indexes the depth axis within bounds, for every
distribution sample `raw`. -/
theorem C10_depth_map_in_bounds (span dep : ℕ) (raw : Activity) (i j : ℕ)
    (hd : 0 < dep) : compute_depth_map span dep raw i j < dep :=
  compute_depth_map_lt span dep raw hd i j

theorem C10_depth_map_in_bounds_witness :
    0 < 2 ∧ TemporalScatter.compute_depth_map 2 2 (fun _ _ => 0) 0 0 < 2 :=
  ⟨by decide, C10_depth_map_in_bounds 2 2 (fun _ _ => 0) 0 0 (by decide)⟩

lemma depth_cond_iff (span timestep : ℕ) (ht : 0 < timestep) :
    (¬ (span / timestep = 0 ∨ span % timestep ≠ 0)) ↔
      (∃ k, 0 < k ∧ span = k * timestep) := by
  constructor
  · intro h
    push_neg at h
    obtain ⟨h1, h2⟩ := h
    refine ⟨span / timestep, Nat.pos_of_ne_zero h1, ?_⟩
    exact (Nat.div_mul_cancel (Nat.dvd_of_mod_eq_zero h2)).symm
  · rintro ⟨k, hk, rfl⟩
    push_neg
    refine ⟨?_, Nat.mul_mod_left k timestep⟩
    rw [Nat.mul_div_cancel _ ht]
    omega

/-- C6: accessing `depth` raises an error if and only if `span` is not an
exact positive multiple of `timestep`; when it does not raise, it returns
`span / timestep`. -/
theorem C6_depth_error_iff (span timestep : ℕ) (ht : 0 < timestep) :
    ((∀ e, depth span timestep ≠ Except.error e) ↔
        (∃ k, 0 < k ∧ span = k * timestep)) ∧
    ((∃ k, 0 < k ∧ span = k * timestep) →
        depth span timestep = Except.ok (span / timestep)) := by
  have key := depth_cond_iff span timestep ht
  constructor
  · constructor
    · intro h
      rw [← key]
      intro hc
      exact h "The span of the specified limits must be an exact, *positive*, multiple of timestep"
        (by simp [depth, hc])
    · intro h e
      rw [← key] at h
      simp [depth, h]
  · intro h
    rw [← key] at h
    simp [depth, h]

theorem C6_depth_error_iff_witness :
    0 < 5 ∧ TemporalScatter.depth 120 5 = Except.ok (120 / 5) :=
  ⟨by decide, (C6_depth_error_iff 120 5 (by decide)).2 ⟨24, by decide, by decide⟩⟩

/-- C3: `state_push` immediately followed by `state_pop` restores the
activity buffer, the first-call flag and the checkpoint stack exactly to
their pre-push values, even though the push zeroes the live buffer (when
allocated) in between. -/
theorem C3_push_pop_roundtrip (s : State) :
    (state_pop (state_push s)).buffer = s.buffer ∧
    (state_pop (state_push s)).first_call = s.first_call ∧
    (state_pop (state_push s)).state_stack = s.state_stack ∧
    (∀ b, s.buffer = some b → (state_push s).buffer = some (fun _ _ _ => (0 : ℚ))) := by
  refine ⟨rfl, rfl, rfl, ?_⟩
  intro b hb
  simp [state_push, hb]

theorem C3_push_pop_roundtrip_witness :
    ((state_pop (state_push
        { buffer := some (fun _ _ _ => 5), first_call := false,
          depth_map := fun _ _ => 0, state_stack := [] })).buffer
      = some (fun _ _ _ => (5 : ℚ))) ∧
    ((state_push
        { buffer := some (fun _ _ _ => 5), first_call := false,
          depth_map := fun _ _ => 0, state_stack := [] }).buffer
      = some (fun _ _ _ => (0 : ℚ))) :=
  ⟨(C3_push_pop_roundtrip _).1,
   (C3_push_pop_roundtrip
      { buffer := some (fun _ _ _ => 5), first_call := false,
        depth_map := fun _ _ => 0, state_stack := [] }).2.2.2 _ rfl⟩

lemma call_first_call (span timestep : ℕ) (raw : Activity) (s : State) (x : Activity) :
    ((call span timestep raw s x).1).first_call = false := by
  by_cases h : s.first_call <;> simp [call, h]

lemma call_depth_map (span timestep : ℕ) (raw : Activity) (s : State) (x : Activity) :
    ((call span timestep raw s x).1).depth_map
      = if s.first_call then compute_depth_map span (span / timestep) raw
        else s.depth_map := by
  by_cases h : s.first_call <;> simp [call, h]

lemma state_after_first_call (span timestep : ℕ) (raw : Activity) (xs : ℕ → Activity)
    (n : ℕ) : (state_after span timestep raw xs (n + 1)).first_call = false :=
  call_first_call span timestep raw _ (xs n)

lemma state_after_depth_map (span timestep : ℕ) (raw : Activity) (xs : ℕ → Activity)
    (n : ℕ) : (state_after span timestep raw xs (n + 1)).depth_map
      = compute_depth_map span (span / timestep) raw := by
  induction n with
  | zero => simp [state_after, call_depth_map, State.init]
  | succ n ih =>
      rw [state_after, call_depth_map,
          if_neg (by simp [state_after_first_call])]
      exact ih

lemma state_after_buffer (span timestep : ℕ) (raw : Activity) (xs : ℕ → Activity) :
    ∀ n k i j, k ≤ n → k < span / timestep →
      ((state_after span timestep raw xs (n + 1)).buffer).getD (fun _ _ _ => 0) i j k
        = xs (n - k) i j := by
  intro n
  induction n with
  | zero =>
      intro k i j hk _
      have hk0 : k = 0 := Nat.le_zero.mp hk
      subst hk0
      simp [state_after, call, State.init]
  | succ n ih =>
      intro k i j hk hkd
      have hfc := state_after_first_call span timestep raw xs n
      have hstep : state_after span timestep raw xs (n + 1 + 1)
          = (call span timestep raw (state_after span timestep raw xs (n + 1))
              (xs (n + 1))).1 := rfl
      match k with
      | 0 =>
          rw [hstep]
          simp [call, hfc]
      | k + 1 =>
          have hk' : k ≤ n := by omega
          have hkd' : k < span / timestep := by omega
          have hmod : (k + 1 + span / timestep - 1) % (span / timestep) = k := by
            have h1 : k + 1 + span / timestep - 1 = k + span / timestep := by omega
            rw [h1, Nat.add_mod_right]
            exact Nat.mod_eq_of_lt hkd'
          have hsub : n + 1 - (k + 1) = n - k := by omega
          rw [hstep]
          simp only [call, hfc, Bool.false_eq_true, if_false, Option.getD_some,
            hmod, hsub, Nat.succ_ne_zero]
          simpa using ih k i j hk' hkd'

lemma output_eq_buffer (span timestep : ℕ) (raw : Activity) (xs : ℕ → Activity)
    (n i j : ℕ) :
    output span timestep raw xs n i j
      = ((state_after span timestep raw xs (n + 1)).buffer).getD (fun _ _ _ => 0) i j
          ((state_after span timestep raw xs (n + 1)).depth_map i j) := rfl

/-- C1: for TemporalScatter with a valid configuration (`span` an exact
positive multiple of `timestep`), after at least `depth` calls, the matrix
value written at `(i, j)` by the current call (call number `n`, 0-indexed)
equals the input value at `(i, j)` supplied `d` calls ago, where
`d = depth_map[i,j]` (`d = 0` meaning the current call's input). -/
theorem C1_temporal_scatter_delay (span timestep : ℕ) (raw : Activity)
    (xs : ℕ → Activity) (n i j : ℕ) (ht : 0 < timestep)
    (hmod : span % timestep = 0) (hpos : 0 < span / timestep)
    (hn : span / timestep ≤ n + 1) :
    output span timestep raw xs n i j
      = xs (n - (state_after span timestep raw xs (n + 1)).depth_map i j) i j := by
  have hdm := state_after_depth_map span timestep raw xs n
  have hdlt : (state_after span timestep raw xs (n + 1)).depth_map i j
      < span / timestep := by
    rw [hdm]
    exact compute_depth_map_lt _ _ _ hpos i j
  have hdn : (state_after span timestep raw xs (n + 1)).depth_map i j ≤ n := by omega
  rw [output_eq_buffer]
  exact state_after_buffer span timestep raw xs n _ i j hdn hdlt

/-- Example constant-zero raw distribution sample, used by witnesses. -/
def rawZero : Activity := fun _ _ => 0

/-- Example input stream whose call number `m` input is the constant matrix
with value `m`, used by witnesses. -/
def xsCount : ℕ → Activity := fun m _ _ => (m : ℚ)

theorem C1_temporal_scatter_delay_witness :
    0 < 1 ∧
    output 2 1 rawZero xsCount 1 0 0
      = xsCount (1 - (state_after 2 1 rawZero xsCount (1 + 1)).depth_map 0 0) 0 0 :=
  ⟨by decide,
   C1_temporal_scatter_delay 2 1 rawZero xsCount 1 0 0
     (by decide) (by decide) (by decide) (by decide)⟩

end TemporalScatter

namespace HomeostaticResponse

/-- Configuration of a HomeostaticResponse instance. The additive
initialization noise sampled by `imagen.random.UniformRandom` is external
randomness and is passed in as the abstract field `noise` (the whole term
`(UniformRandom(..) - 0.5) * noise_magnitude * 2`); `plastic` is the
inherited flag gating state updates. -/
structure Config where
  t_init : ℚ
  target_activity : ℚ
  linear_slope : ℚ
  learning_rate : ℚ
  smoothing : ℚ
  period : ℚ
  randomized_init : Bool
  noise : Activity
  plastic : Bool

/-- Mutable state of a HomeostaticResponse instance: threshold `t`, smoothed
average `y_avg`, the first-call flag, the scheduled next-update timestamp,
and the previous-call snapshots `_y_avg_prev` and `_x_prev`. The fields that
are `None` before the first call are zero placeholders here. -/
structure State where
  t : Activity
  y_avg : Activity
  first_call : Bool
  next_update : ℚ
  y_avg_prev : Activity
  x_prev : Activity

/-- State created by `HomeostaticResponse.__init__` at simulation time
`sim_time`: the next update is scheduled at `sim_time + period`. -/
def init_state (cfg : Config) (sim_time : ℚ) : State :=
  { t := fun _ _ => 0, y_avg := fun _ _ => 0, first_call := true,
    next_update := sim_time + cfg.period,
    y_avg_prev := fun _ _ => 0, x_prev := fun _ _ => 0 }

/-- Embedding of `HomeostaticResponse._initialize`: record the incoming
activity as `_x_prev`, set `_y_avg_prev` and `y_avg` to the target activity,
and set the threshold to `t_init` (plus per-unit noise when
`randomized_init`). -/
def initialise (cfg : Config) (s : State) (x : Activity) : State :=
  { s with x_prev := x,
           y_avg_prev := fun _ _ => cfg.target_activity,
           t := if cfg.randomized_init
                then fun i j => cfg.t_init + cfg.noise i j
                else fun _ _ => cfg.t_init,
           y_avg := fun _ _ => cfg.target_activity }

/-- Embedding of `HomeostaticResponse._apply_threshold` together with
`clip_lower(x, 0)` from `topo.base.arrayutil` (not under src; modelled from
the spec: subtract the threshold, clip negative values to zero, and scale by
`linear_slope`, the multiplication being skipped when the slope is 1). -/
def apply_threshold (cfg : Config) (t x : Activity) : Activity :=
  let clipped : Activity := fun i j => max (x i j - t i j) 0
  if cfg.linear_slope ≠ 1 then fun i j => clipped i j * cfg.linear_slope else clipped

/-- Embedding of `HomeostaticResponse._update_threshold`: exponential
smoothing of the given activity against the previous smoothed value, and the
homeostatic threshold step; when `plastic` is false the previous values are
returned unchanged. -/
def update_threshold (cfg : Config) (prev_t x prev_avg : Activity) :
    Activity × Activity :=
  let y_avg : Activity := fun i j =>
    (1 - cfg.smoothing) * x i j + cfg.smoothing * prev_avg i j
  let t : Activity := fun i j =>
    prev_t i j + cfg.learning_rate * (y_avg i j - cfg.target_activity)
  if cfg.plastic then (y_avg, t) else (prev_avg, prev_t)

/-- Embedding of `HomeostaticResponse.__call__` at simulation time `time`:
initialize on the first call; when the simulation clock has passed the
scheduled timestamp, advance the schedule by one period and update
`(y_avg, t)` from the previous call's activity; then apply the threshold and
record the resulting activity as `_x_prev`. -/
def call (cfg : Config) (s : State) (time : ℚ) (x : Activity) : State × Activity :=
  let s1 := if s.first_call then { initialise cfg s x with first_call := false } else s
  let s2 := if s1.next_update < time then
      let yt := update_threshold cfg s1.t s1.x_prev s1.y_avg_prev
      { s1 with next_update := s1.next_update + cfg.period,
                y_avg := yt.1, t := yt.2, y_avg_prev := yt.1 }
    else s1
  let out := apply_threshold cfg s2.t x
  ({ s2 with x_prev := out }, out)

/-- State after the first `n` calls from construction time `sim_time`, fed
the input stream `xs` at simulation times `ts`. -/
def state_after (cfg : Config) (sim_time : ℚ) (xs : ℕ → Activity) (ts : ℕ → ℚ) :
    ℕ → State
  | 0 => init_state cfg sim_time
  | n + 1 => (call cfg (state_after cfg sim_time xs ts n) (ts n) (xs n)).1

lemma call_clears_first_call (cfg : Config) (s : State) (time : ℚ) (x : Activity) :
    ((call cfg s time x).1).first_call = false := by
  cases h : s.first_call <;> simp [call, h] <;> split <;> simp [h]

lemma state_after_first_call_false (cfg : Config) (T : ℚ) (xs : ℕ → Activity) (ts : ℕ → ℚ)
    (n : ℕ) : (state_after cfg T xs ts (n + 1)).first_call = false :=
  call_clears_first_call cfg _ (ts n) (xs n)

lemma call_next_update (cfg : Config) (s : State) (time : ℚ) (x : Activity)
    (hper : cfg.period = 0) :
    ((call cfg s time x).1).next_update = s.next_update := by
  cases h : s.first_call <;> by_cases h2 : s.next_update < time <;>
    simp [call, initialise, h, h2, hper]

lemma state_after_next_update (cfg : Config) (T : ℚ) (xs : ℕ → Activity) (ts : ℕ → ℚ)
    (hper : cfg.period = 0) :
    ∀ n, (state_after cfg T xs ts n).next_update = T := by
  intro n
  induction n with
  | zero => simp [state_after, init_state, hper]
  | succ n ih => rw [state_after, call_next_update cfg _ _ _ hper, ih]

lemma call_no_update (cfg : Config) (s : State) (time : ℚ) (x : Activity)
    (hfc : s.first_call = false) (hnt : ¬ s.next_update < time) :
    ((call cfg s time x).1).t = s.t ∧ ((call cfg s time x).1).y_avg = s.y_avg ∧
    ((call cfg s time x).1).y_avg_prev = s.y_avg_prev := by
  simp [call, hfc, hnt]

lemma call_update_plastic (cfg : Config) (s : State) (time : ℚ) (x : Activity)
    (hfc : s.first_call = false) (hnt : s.next_update < time)
    (hpl : cfg.plastic = true) :
    ((call cfg s time x).1).y_avg = (fun i j =>
        (1 - cfg.smoothing) * s.x_prev i j + cfg.smoothing * s.y_avg_prev i j) ∧
    ((call cfg s time x).1).t = (fun i j =>
        s.t i j + cfg.learning_rate *
          (((1 - cfg.smoothing) * s.x_prev i j + cfg.smoothing * s.y_avg_prev i j)
            - cfg.target_activity)) := by
  simp [call, hfc, hnt, update_threshold, hpl]

lemma state_after_y_avg_low (cfg : Config) (T : ℚ) (xs : ℕ → Activity) (ts : ℕ → ℚ)
    (hper : cfg.period = 0) :
    ∀ m, (∀ k, k < m + 1 → ts k ≤ T) →
      (state_after cfg T xs ts (m + 1)).y_avg = fun _ _ => cfg.target_activity := by
  intro m
  induction m with
  | zero =>
      intro h
      have h0 : ¬ (T + cfg.period < ts 0) := by
        have := h 0 (by omega)
        rw [hper]
        simpa using not_lt.mpr this
      simp [state_after, call, init_state, initialise, h0]
  | succ m ih =>
      intro h
      have hfc := state_after_first_call_false cfg T xs ts m
      have hnu := state_after_next_update cfg T xs ts hper (m + 1)
      have hm : ¬ (state_after cfg T xs ts (m + 1)).next_update < ts (m + 1) := by
        rw [hnu]
        exact not_lt.mpr (h (m + 1) (by omega))
      have hcall := call_no_update cfg (state_after cfg T xs ts (m + 1)) (ts (m + 1))
        (xs (m + 1)) hfc hm
      have hih := ih (fun k hk => h k (by omega))
      calc (state_after cfg T xs ts (m + 1 + 1)).y_avg
        = (state_after cfg T xs ts (m + 1)).y_avg := hcall.2.1
        _ = fun _ _ => cfg.target_activity := hih

/-- C5: for HomeostaticResponse with `period = 0` and `plastic = True`
(positive learning rate, nondecreasing simulation clock): on every call after
the first, every unit's threshold strictly increases where the smoothed
average activity exceeds `target_activity` and strictly decreases where it is
below `target_activity`. -/
theorem C5_threshold_direction (cfg : Config) (T : ℚ) (xs : ℕ → Activity)
    (ts : ℕ → ℚ) (n i j : ℕ) (hper : cfg.period = 0) (hpl : cfg.plastic = true)
    (hlr : 0 < cfg.learning_rate) (hmono : ∀ k l, k ≤ l → ts k ≤ ts l)
    (hn : 1 ≤ n) :
    (cfg.target_activity < (state_after cfg T xs ts (n + 1)).y_avg i j →
       (state_after cfg T xs ts n).t i j < (state_after cfg T xs ts (n + 1)).t i j) ∧
    ((state_after cfg T xs ts (n + 1)).y_avg i j < cfg.target_activity →
       (state_after cfg T xs ts (n + 1)).t i j < (state_after cfg T xs ts n).t i j) := by
  obtain ⟨m, rfl⟩ : ∃ m, n = m + 1 := ⟨n - 1, by omega⟩
  have hfc := state_after_first_call_false cfg T xs ts m
  have hnu := state_after_next_update cfg T xs ts hper (m + 1)
  by_cases hc : (state_after cfg T xs ts (m + 1)).next_update < ts (m + 1)
  · have h1 := call_update_plastic cfg (state_after cfg T xs ts (m + 1)) (ts (m + 1))
      (xs (m + 1)) hfc hc hpl
    have hstep : state_after cfg T xs ts (m + 1 + 1)
        = (call cfg (state_after cfg T xs ts (m + 1)) (ts (m + 1)) (xs (m + 1))).1 :=
      rfl
    have hy : (state_after cfg T xs ts (m + 1 + 1)).y_avg i j
        = (1 - cfg.smoothing) * (state_after cfg T xs ts (m + 1)).x_prev i j +
            cfg.smoothing * (state_after cfg T xs ts (m + 1)).y_avg_prev i j := by
      rw [hstep, h1.1]
    have ht2 : (state_after cfg T xs ts (m + 1 + 1)).t i j
        = (state_after cfg T xs ts (m + 1)).t i j + cfg.learning_rate *
            (((1 - cfg.smoothing) * (state_after cfg T xs ts (m + 1)).x_prev i j +
               cfg.smoothing * (state_after cfg T xs ts (m + 1)).y_avg_prev i j)
              - cfg.target_activity) := by
      rw [hstep, h1.2]
    rw [hy, ht2]
    constructor
    · intro h
      have hpos : 0 < cfg.learning_rate *
          (((1 - cfg.smoothing) * (state_after cfg T xs ts (m + 1)).x_prev i j +
             cfg.smoothing * (state_after cfg T xs ts (m + 1)).y_avg_prev i j)
            - cfg.target_activity) := mul_pos hlr (by linarith)
      linarith
    · intro h
      have hneg : cfg.learning_rate *
          (((1 - cfg.smoothing) * (state_after cfg T xs ts (m + 1)).x_prev i j +
             cfg.smoothing * (state_after cfg T xs ts (m + 1)).y_avg_prev i j)
            - cfg.target_activity) < 0 :=
        mul_neg_of_pos_of_neg hlr (by linarith)
      linarith
  · have hts : ∀ k, k < m + 1 + 1 → ts k ≤ T := by
      intro k hk
      have h1 : ts k ≤ ts (m + 1) := hmono k (m + 1) (by omega)
      have h2 : ts (m + 1) ≤ T := by
        rw [hnu] at hc
        exact not_lt.mp hc
      linarith
    have hya := state_after_y_avg_low cfg T xs ts hper (m + 1) hts
    rw [hya]
    constructor
    · intro h
      exact absurd h (lt_irrefl _)
    · intro h
      exact absurd h (lt_irrefl _)

/-- Example config for the C5 witness: period 0, plastic, learning rate 1. -/
def cfgC5 : Config :=
  { t_init := 0, target_activity := 0, linear_slope := 1, learning_rate := 1,
    smoothing := 0, period := 0, randomized_init := false,
    noise := fun _ _ => 0, plastic := true }

/-- Example constant-one input stream. -/
def xsOne : ℕ → Activity := fun _ _ _ => 1

/-- Example constant simulation clock fixed at time 1. -/
def tsOne : ℕ → ℚ := fun _ => 1

theorem C5_threshold_direction_witness :
    0 < cfgC5.learning_rate ∧ 1 ≤ 1 ∧
    ((cfgC5.target_activity < (state_after cfgC5 0 xsOne tsOne (1 + 1)).y_avg 0 0 →
        (state_after cfgC5 0 xsOne tsOne 1).t 0 0
          < (state_after cfgC5 0 xsOne tsOne (1 + 1)).t 0 0) ∧
     ((state_after cfgC5 0 xsOne tsOne (1 + 1)).y_avg 0 0 < cfgC5.target_activity →
        (state_after cfgC5 0 xsOne tsOne (1 + 1)).t 0 0
          < (state_after cfgC5 0 xsOne tsOne 1).t 0 0)) :=
  ⟨by decide, by decide,
   C5_threshold_direction cfgC5 0 xsOne tsOne 1 0 0 rfl rfl (by decide)
     (fun _ _ _ => le_refl 1) (by decide)⟩

lemma call_nonplastic (cfg : Config) (s : State) (time : ℚ) (x : Activity)
    (hpl : cfg.plastic = false) (hfc : s.first_call = false)
    (hinv : s.y_avg_prev = s.y_avg) :
    ((call cfg s time x).1).t = s.t ∧ ((call cfg s time x).1).y_avg = s.y_avg ∧
    ((call cfg s time x).1).y_avg_prev = ((call cfg s time x).1).y_avg := by
  by_cases hnt : s.next_update < time
  · simp [call, hfc, hnt, update_threshold, hpl, hinv]
  · simp [call, hfc, hnt, hinv]

lemma state_after_nonplastic (cfg : Config) (T : ℚ) (xs : ℕ → Activity) (ts : ℕ → ℚ)
    (hpl : cfg.plastic = false) :
    ∀ m, (state_after cfg T xs ts (m + 1)).t = (state_after cfg T xs ts 1).t ∧
      (state_after cfg T xs ts (m + 1)).y_avg = (state_after cfg T xs ts 1).y_avg ∧
      (state_after cfg T xs ts (m + 1)).y_avg_prev
        = (state_after cfg T xs ts (m + 1)).y_avg := by
  intro m
  induction m with
  | zero =>
      refine ⟨rfl, rfl, ?_⟩
      by_cases hnt : T + cfg.period < ts 0 <;>
        simp [state_after, call, init_state, initialise, update_threshold, hpl, hnt]
  | succ m ih =>
      have h := call_nonplastic cfg (state_after cfg T xs ts (m + 1)) (ts (m + 1))
        (xs (m + 1)) hpl (state_after_first_call_false cfg T xs ts m) ih.2.2
      exact ⟨h.1.trans ih.1, h.2.1.trans ih.2.1, h.2.2⟩

/-- C7: for HomeostaticResponse with `plastic = False`, the threshold matrix
`t` and the smoothed average `y_avg` are unchanged across any number of
calls after initialization, including calls on which the scheduled update
condition triggers. -/
theorem C7_nonplastic_frozen (cfg : Config) (T : ℚ) (xs : ℕ → Activity)
    (ts : ℕ → ℚ) (n : ℕ) (hpl : cfg.plastic = false) (hn : 1 ≤ n) :
    (state_after cfg T xs ts n).t = (state_after cfg T xs ts 1).t ∧
    (state_after cfg T xs ts n).y_avg = (state_after cfg T xs ts 1).y_avg := by
  obtain ⟨m, rfl⟩ : ∃ m, n = m + 1 := ⟨n - 1, by omega⟩
  exact ⟨(state_after_nonplastic cfg T xs ts hpl m).1,
         (state_after_nonplastic cfg T xs ts hpl m).2.1⟩

/-- Example config for the C7 witness: plastic disabled, period 0 so that
every call after the construction time would otherwise trigger an update. -/
def cfgC7 : Config :=
  { t_init := 0, target_activity := 0, linear_slope := 1, learning_rate := 1,
    smoothing := 0, period := 0, randomized_init := false,
    noise := fun _ _ => 0, plastic := false }

theorem C7_nonplastic_frozen_witness :
    1 ≤ 3 ∧
    ((state_after cfgC7 0 xsOne tsOne 3).t = (state_after cfgC7 0 xsOne tsOne 1).t ∧
     (state_after cfgC7 0 xsOne tsOne 3).y_avg
       = (state_after cfgC7 0 xsOne tsOne 1).y_avg) :=
  ⟨by decide, C7_nonplastic_frozen cfgC7 0 xsOne tsOne 3 rfl (by decide)⟩

/-- C4 (amended): after every HomeostaticResponse call, the stored snapshot
`_x_prev` equals the post-threshold activity, i.e. the matrix the call wrote
in place (the source records `x` only after `_apply_threshold` has mutated
it). -/
theorem C4_x_prev_records_output (cfg : Config) (s : State) (time : ℚ)
    (x : Activity) : ((call cfg s time x).1).x_prev = (call cfg s time x).2 := rfl

/-- Example config for the C4 counterexample: threshold 1, slope 1. -/
def cfgC4 : Config :=
  { t_init := 1, target_activity := 0, linear_slope := 1, learning_rate := 1,
    smoothing := 0, period := 1, randomized_init := false,
    noise := fun _ _ => 0, plastic := true }

/-- C4 counterexample: on the first call with constant input 2 and threshold
1, the recorded `_x_prev` is 1 (the post-threshold output), not the
pre-threshold activity 2 claimed by the spec. -/
theorem C4_x_prev_not_pre_threshold :
    ((call cfgC4 (init_state cfgC4 0) 0 (fun _ _ => 2)).1).x_prev 0 0
      ≠ (fun _ _ => (2 : ℚ)) 0 0 := by
  have h : ((call cfgC4 (init_state cfgC4 0) 0 (fun _ _ => 2)).1).x_prev 0 0
      = max ((2 : ℚ) - 1) 0 := by
    norm_num [call, init_state, initialise, apply_threshold, cfgC4]
  rw [h]
  norm_num

end HomeostaticResponse

namespace KernelMax

/-- Embedding of Python `int()` applied to a rational: truncation toward
zero. -/
def pyint (q : ℚ) : ℤ := if 0 ≤ q then ⌊q⌋ else ⌈q⌉

/-- Embedding of the local `crop_radius` computation in `KernelMax.__call__`:
`int(max(1.25, radius * crop_radius_multiplier))` with
`radius = density * kernel_radius`. -/
def crop_radius (kernel_radius density crop_radius_multiplier : ℚ) : ℤ :=
  pyint (max (5 / 4) (density * kernel_radius * crop_radius_multiplier))

/-- Comparison definition following the spec's words (refinement check only):
the ceiling of `max(1.25, kernel_radius * density * crop_radius_multiplier)`. -/
def crop_radius_spec (kernel_radius density crop_radius_multiplier : ℚ) : ℤ :=
  ⌈max (5 / 4 : ℚ) (kernel_radius * density * crop_radius_multiplier)⌉

/-- Value of flattened cell `k` of matrix `x` in row-major (C) order with
`cols` columns, as read by the flattening arg-max search. -/
def cell (x : Activity) (cols k : ℕ) : ℚ := x (k / cols) (k % cols)

/-- Linear index of the first-occurrence maximum among the flattened cells
`[0, n)`, scanning forward and replacing the best index only on a strictly
greater value. -/
def argmax_lin (x : Activity) (cols : ℕ) : ℕ → ℕ
  | 0 => 0
  | n + 1 =>
      let b := argmax_lin x cols n
      if cell x cols b < cell x cols n then n else b

/-- Modelled from the spec: `array_argmax` (from `topo.base.arrayutil`, not
under src) locates the matrix coordinates of the maximum value of `x`, ties
broken by the underlying arg-max search order — first occurrence in row-major
order. -/
def array_argmax (x : Activity) (rows cols : ℕ) : ℕ × ℕ :=
  let L := argmax_lin x cols (rows * cols)
  (L / cols, L % cols)

/-- Crop region of `KernelMax.__call__`: matrix position `(r, c)` lies inside
the square of half-width `crop` around the winner `w`, clipped to the matrix
bounds (`rmin ≤ r < rmax` and `cmin ≤ c < cmax` with the source's
`max`/`min` clipping). -/
def in_crop (crop : ℤ) (w : ℕ × ℕ) (rows cols r c : ℕ) : Prop :=
  max ((w.1 : ℤ) - crop) 0 ≤ (r : ℤ) ∧
  (r : ℤ) < min ((w.1 : ℤ) + crop + 1) (rows : ℤ) ∧
  max ((w.2 : ℤ) - crop) 0 ≤ (c : ℤ) ∧
  (c : ℤ) < min ((w.2 : ℤ) + crop + 1) (cols : ℤ)

instance in_crop_dec (crop : ℤ) (w : ℕ × ℕ) (rows cols r c : ℕ) :
    Decidable (in_crop crop w rows cols r c) := by
  unfold in_crop
  infer_instance

/-- Embedding of `KernelMax.__call__`: find the winner (arg-max of `x`),
zero the matrix, and write the neighborhood kernel into the crop region
around the winner. The kernel values themselves come from the external
`neighborhood_kernel_generator` (evaluated over the bounding box built from
the flipped sheet coordinate `wy`), so the generated kernel, reindexed to
matrix coordinates, is passed in as the abstract parameter `kernel`. -/
def call (kernel_radius density crop_radius_multiplier : ℚ) (kernel : Activity)
    (rows cols : ℕ) (x : Activity) : Activity :=
  fun r c =>
    if in_crop (crop_radius kernel_radius density crop_radius_multiplier)
        (array_argmax x rows cols) rows cols r c
    then kernel r c else 0

/-- C2 counterexample: with `kernel_radius = 0`, `density = 1`,
`crop_radius_multiplier = 3`, the code's half-width is `int(1.25) = 1`,
whereas the claimed formula `ceil(max(1.25, 0)) = 2`. -/
theorem C2_crop_radius_counterexample :
    crop_radius 0 1 3 = 1 ∧ crop_radius_spec 0 1 3 = 2 := by
  constructor
  · have h0 : (1 : ℚ) * 0 * 3 = 0 := by ring
    unfold crop_radius pyint
    rw [h0, max_eq_left (by norm_num : (0 : ℚ) ≤ 5 / 4),
        if_pos (by norm_num : (0 : ℚ) ≤ (5 : ℚ) / 4)]
    rw [show (1 : ℤ) = ⌊(5 / 4 : ℚ)⌋ from by rw [eq_comm, Int.floor_eq_iff]; norm_num]
  · have h0 : (0 : ℚ) * 1 * 3 = 0 := by ring
    unfold crop_radius_spec
    rw [h0, max_eq_left (by norm_num : (0 : ℚ) ≤ 5 / 4)]
    rw [show (2 : ℤ) = ⌈(5 / 4 : ℚ)⌉ from by rw [eq_comm, Int.ceil_eq_iff]; norm_num]

/-- C2 (amended): the crop half-width equals the floor (Python `int()`
truncation of a value that is at least 1.25, hence nonnegative) of
`max(1.25, kernel_radius * density * crop_radius_multiplier)`, not the
ceiling; in particular with `kernel_radius = 0` the half-width is 1. -/
theorem C2_crop_radius_formula (kr d m : ℚ) :
    crop_radius kr d m = ⌊max (5 / 4 : ℚ) (d * kr * m)⌋ ∧ crop_radius 0 d m = 1 := by
  constructor
  · unfold crop_radius pyint
    rw [if_pos (le_trans (by norm_num) (le_max_left (5 / 4 : ℚ) (d * kr * m)))]
  · have h0 : d * (0 : ℚ) * m = 0 := by ring
    unfold crop_radius pyint
    rw [h0, max_eq_left (by norm_num : (0 : ℚ) ≤ 5 / 4),
        if_pos (by norm_num : (0 : ℚ) ≤ (5 : ℚ) / 4)]
    rw [show (1 : ℤ) = ⌊(5 / 4 : ℚ)⌋ from by rw [eq_comm, Int.floor_eq_iff]; norm_num]

lemma argmax_lin_lt (x : Activity) (cols : ℕ) :
    ∀ n, 0 < n → argmax_lin x cols n < n := by
  intro n
  induction n with
  | zero => omega
  | succ n ih =>
      intro _
      simp only [argmax_lin]
      split
      · omega
      · rcases Nat.eq_zero_or_pos n with h | h
        · subst h
          simp [argmax_lin]
        · exact lt_trans (ih h) (by omega)

lemma argmax_lin_le (x : Activity) (cols : ℕ) :
    ∀ n k, k < n → cell x cols k ≤ cell x cols (argmax_lin x cols n) := by
  intro n
  induction n with
  | zero => omega
  | succ n ih =>
      intro k hk
      simp only [argmax_lin]
      split
      · rcases Nat.lt_succ_iff_lt_or_eq.mp hk with h | h
        · exact le_trans (ih k h) (le_of_lt (by assumption))
        · subst h
          exact le_refl _
      · rcases Nat.lt_succ_iff_lt_or_eq.mp hk with h | h
        · exact ih k h
        · subst h
          exact le_of_not_lt (by assumption)

lemma argmax_lin_first (x : Activity) (cols : ℕ) :
    ∀ n k, k < argmax_lin x cols n →
      cell x cols k < cell x cols (argmax_lin x cols n) := by
  intro n
  induction n with
  | zero =>
      intro k hk
      simp [argmax_lin] at hk
  | succ n ih =>
      intro k
      simp only [argmax_lin]
      split
      · intro hk
        exact lt_of_le_of_lt (argmax_lin_le x cols n k hk) (by assumption)
      · exact ih k

/-- C8: after every `KernelMax.__call__`, all matrix values outside the
computed crop region are exactly zero, and the crop center is the arg-max of
the pre-call input: a position inside the matrix carrying the maximum value,
with ties broken by first occurrence in row-major search order (being a
function of the input, the center is deterministic: same input, same
center). -/
theorem C8_kernel_max (kr d m : ℚ) (kernel : Activity) (rows cols : ℕ)
    (x : Activity) (hr : 0 < rows) (hc : 0 < cols) :
    (∀ r c, ¬ in_crop (crop_radius kr d m) (array_argmax x rows cols) rows cols r c →
        call kr d m kernel rows cols x r c = 0) ∧
    (array_argmax x rows cols).1 < rows ∧
    (array_argmax x rows cols).2 < cols ∧
    (∀ r c, r < rows → c < cols →
        x r c ≤ x (array_argmax x rows cols).1 (array_argmax x rows cols).2) ∧
    (∀ r c, r < rows → c < cols →
        r * cols + c < (array_argmax x rows cols).1 * cols +
          (array_argmax x rows cols).2 →
        x r c < x (array_argmax x rows cols).1 (array_argmax x rows cols).2) := by
  have hL : argmax_lin x cols (rows * cols) < rows * cols :=
    argmax_lin_lt x cols (rows * cols) (Nat.mul_pos hr hc)
  have hcell : ∀ r c, r < rows → c < cols → cell x cols (r * cols + c) = x r c := by
    intro r c _ hcb
    have hdiv : (r * cols + c) / cols = r := by
      rw [Nat.mul_comm r cols, Nat.mul_add_div hc, Nat.div_eq_of_lt hcb, Nat.add_zero]
    have hmod : (r * cols + c) % cols = c := by
      rw [Nat.mul_comm r cols, Nat.mul_add_mod, Nat.mod_eq_of_lt hcb]
    unfold cell
    rw [hdiv, hmod]
  have hwcell : cell x cols (argmax_lin x cols (rows * cols))
      = x (array_argmax x rows cols).1 (array_argmax x rows cols).2 := rfl
  have hLdecomp : (array_argmax x rows cols).1 * cols + (array_argmax x rows cols).2
      = argmax_lin x cols (rows * cols) := by
    show argmax_lin x cols (rows * cols) / cols * cols +
        argmax_lin x cols (rows * cols) % cols = argmax_lin x cols (rows * cols)
    rw [Nat.mul_comm, Nat.div_add_mod]
  refine ⟨?_, ?_, ?_, ?_, ?_⟩
  · intro r c h
    simp only [call]
    rw [if_neg h]
  · exact (Nat.div_lt_iff_lt_mul hc).mpr hL
  · exact Nat.mod_lt _ hc
  · intro r c hrb hcb
    have h := argmax_lin_le x cols (rows * cols) (r * cols + c)
      (lt_of_lt_of_le (by rw [add_one_mul]; omega : r * cols + c < (r + 1) * cols)
        (Nat.mul_le_mul_right cols hrb))
    rw [hcell r c hrb hcb, hwcell] at h
    exact h
  · intro r c hrb hcb hlt
    rw [hLdecomp] at hlt
    have h := argmax_lin_first x cols (rows * cols) (r * cols + c) hlt
    rw [hcell r c hrb hcb, hwcell] at h
    exact h

/-- Example input for the C8 witness: the maximum 1 sits at `(0, 0)`. -/
def xPeak : Activity := fun i j => if i = 0 ∧ j = 0 then 1 else 0

theorem C8_kernel_max_witness :
    0 < 4 ∧
    xPeak 1 1 ≤ xPeak (array_argmax xPeak 4 4).1 (array_argmax xPeak 4 4).2 :=
  ⟨by decide,
   (C8_kernel_max 0 1 3 (fun _ _ => 1) 4 4 xPeak (by decide) (by decide)).2.2.2.1
     1 1 (by decide) (by decide)⟩

end KernelMax

namespace AttributeTrackingTF

/-- Configuration of an AttributeTrackingTF instance: tracked attribute
names, tracked sheet coordinates, call-count step and the plastic flag. -/
structure Config where
  attrib_names : List String
  units : List (ℚ × ℚ)
  step : ℕ
  plastic : Bool

/-- Mutable state of an AttributeTrackingTF instance: the per-attribute,
per-unit log of (time, value) pairs, and the call counter. -/
structure State where
  values : String → ℚ × ℚ → List (ℚ × ℚ)
  n_step : ℕ

/-- State created by `AttributeTrackingTF.__init__`: empty logs, counter 0. -/
def init_state : State := { values := fun _ _ => [], n_step := 0 }

/-- Embedding of `AttributeTrackingTF.__call__` after the tracked object and
the coordinate frame have been lazily resolved (an external dynamic-lookup
mechanism): `coordframe` is the resolved `sheet2matrixidx` conversion,
`attr` the tracked object's attribute matrices (`getattr`), and `time` the
simulation clock. The counter increments; on each `step`-th call it resets
and, when `plastic`, appends a `(time, value)` pair for every tracked
attribute and unit, the attribute named "x" denoting the incoming activity
itself. -/
def call (cfg : Config) (coordframe : ℚ × ℚ → ℕ × ℕ) (attr : String → Activity)
    (s : State) (time : ℚ) (x : Activity) : State :=
  let n1 := s.n_step + 1
  if n1 = cfg.step then
    if cfg.plastic then
      { values := cfg.attrib_names.foldl (fun acc p =>
          let value_matrix := if p = "x" then x else attr p
          cfg.units.foldl (fun acc2 u =>
            fun q v =>
              if q = p ∧ v = u then
                acc2 q v ++ [(time, value_matrix (coordframe u).1 (coordframe u).2)]
              else acc2 q v) acc) s.values,
        n_step := 0 }
    else { s with n_step := 0 }
  else { s with n_step := n1 }

/-- C9: tracking attribute "x" at coordinate `(0, 0)` with `step = 1` while
plastic, two calls with activity `A1` at time `T1` then `A2` at time `T2`
leave `values "x" (0, 0)` equal to the ordered log
`[(T1, A1 idx), (T2, A2 idx)]`, where `idx` is the matrix index the resolved
coordinate frame assigns to `(0, 0)`. -/
theorem C9_tracking_two_calls (cf : ℚ × ℚ → ℕ × ℕ) (attr : String → Activity)
    (A1 A2 : Activity) (T1 T2 : ℚ) :
    (call { attrib_names := ["x"], units := [(0, 0)], step := 1, plastic := true }
       cf attr
       (call { attrib_names := ["x"], units := [(0, 0)], step := 1, plastic := true }
          cf attr init_state T1 A1) T2 A2).values "x" (0, 0)
      = [(T1, A1 (cf (0, 0)).1 (cf (0, 0)).2), (T2, A2 (cf (0, 0)).1 (cf (0, 0)).2)] := by
  simp [call, init_state]

end AttributeTrackingTF
